import Mathlib

/-!
Verification development for the region-algebra SDF compiler core of
`let-lag-mobile` (crates/core/src/shape and crates/core/src/map).

Shallow embedding conventions:
* `geo::Point` (a pair of `f64` degree coordinates) is modelled as `ℚ × ℚ`;
  floating-point arithmetic on coordinates is idealized as exact rational
  arithmetic, with the Rust rounding / saturating-cast steps made explicit.
* Machine integers are modelled as `ℕ` / `ℤ` with explicit wrapping
  (`% 2 ^ 32`, `as u8` as `% 256`) where the source casts.
* Opaque heap payloads (`Arc<ContourTexture>`, `Arc<Diagram>`,
  `wgpu::ShaderModule`, naga module internals) are either omitted or replaced
  by an identity number, because no inspected claim depends on their content.
* Rust panics (`unimplemented!`, `todo!`, `expect`, explicit `panic!`) are
  modelled as `Except.error`: an error value means the Rust program aborts at
  that point and no partially built value escapes.
-/

namespace LetLag

/-- A geographic coordinate, `geo::Point` in the source: `(x, y)` degrees. -/
abbrev Coordinate := ℚ × ℚ

/-! ### crates/core/src/shape/types.rs -/

/-- Lower bound of the Rust `i32` range. -/
def i32Min : ℤ := -(2 ^ 31)

/-- Upper bound of the Rust `i32` range. -/
def i32Max : ℤ := 2 ^ 31 - 1

/-- Two's-complement wrap of an integer into the `i32` range (a Rust
integer `as i32` cast). -/
def wrapI32 (v : ℤ) : ℤ := (v + 2 ^ 31) % 2 ^ 32 - 2 ^ 31

/-- Saturating cast of an integer to `i32` (Rust float `as i32` casts
saturate at the type bounds). -/
def satI32 (v : ℤ) : ℤ := max i32Min (min i32Max v)

/-- `Centimeters::as_millimeters`: `self.0 as i64 * 10`. The `i32 → i64`
cast is lossless and the product stays far inside the `i64` range, so the
arithmetic is exact. -/
def Centimeters.as_millimeters (c : ℤ) : ℤ := c * 10

/-- `Centimeters::from_millimeters`: `Centimeters((mm / 10) as i32)`.
Rust `i64` division truncates toward zero (`Int.tdiv`); the `as i32` cast
wraps. -/
def Centimeters.from_millimeters (mm : ℤ) : ℤ := wrapI32 (mm.tdiv 10)

/-! ### crates/core/src/shape/instruction.rs -/

/-- `BoundaryOverlapResolution`: tie-break policy for `Boundary`. -/
inductive BoundaryOverlapResolution
  | Inside
  | Outside
  | Midpoint
deriving DecidableEq

/-- `SdfInstruction`: the closed opcode set. Registers are `ℕ` (the source
wraps a `u32`). The `Arc<ContourTexture>` and `Arc<Diagram>` payloads are
opaque handles never inspected by the compiler core and are omitted here. -/
inductive SdfInstruction
  | Point (position : Coordinate) (output : ℕ)
  | PointCloud (points : List Coordinate) (output : ℕ)
  | GreatCircle (point : Coordinate) (bearing : ℚ) (interiorPoint : Coordinate) (output : ℕ)
  | Geodesic (start stop : Coordinate) (output : ℕ)
  | GeodesicString (points : List Coordinate) (output : ℕ)
  | Union (shapes : List ℕ) (output : ℕ)
  | Intersection (left right : ℕ) (output : ℕ)
  | Subtract (left right : ℕ) (output : ℕ)
  | Invert (input : ℕ) (output : ℕ)
  | Dilate (input : ℕ) (amount : ℤ) (output : ℕ)
  | Edge (input : ℕ) (output : ℕ)
  | Boundary (inside outside : ℕ) (overlapResolution : BoundaryOverlapResolution) (output : ℕ)
  | Contour (zeroValue : ℤ) (output : ℕ)
  | LoadVdg (output : ℕ)
deriving DecidableEq

/-- The output register of an instruction (every variant carries one). -/
def SdfInstruction.output : SdfInstruction → ℕ
  | .Point _ o => o
  | .PointCloud _ o => o
  | .GreatCircle _ _ _ o => o
  | .Geodesic _ _ o => o
  | .GeodesicString _ o => o
  | .Union _ o => o
  | .Intersection _ _ o => o
  | .Subtract _ _ o => o
  | .Invert _ o => o
  | .Dilate _ _ o => o
  | .Edge _ o => o
  | .Boundary _ _ _ o => o
  | .Contour _ o => o
  | .LoadVdg o => o

/-- The register operands an instruction reads (empty for leaves). -/
def SdfInstruction.operands : SdfInstruction → List ℕ
  | .Point _ _ => []
  | .PointCloud _ _ => []
  | .GreatCircle _ _ _ _ => []
  | .Geodesic _ _ _ => []
  | .GeodesicString _ _ => []
  | .Union shapes _ => shapes
  | .Intersection l r _ => [l, r]
  | .Subtract l r _ => [l, r]
  | .Invert i _ => [i]
  | .Dilate i _ _ => [i]
  | .Edge i _ => [i]
  | .Boundary i o _ _ => [i, o]
  | .Contour _ _ => []
  | .LoadVdg _ => []

/-- The `strum` discriminant of an instruction: variant declaration order. -/
def SdfInstruction.discriminant : SdfInstruction → ℕ
  | .Point _ _ => 0
  | .PointCloud _ _ => 1
  | .GreatCircle _ _ _ _ => 2
  | .Geodesic _ _ _ => 3
  | .GeodesicString _ _ => 4
  | .Union _ _ => 5
  | .Intersection _ _ _ => 6
  | .Subtract _ _ _ => 7
  | .Invert _ _ => 8
  | .Dilate _ _ _ => 9
  | .Edge _ _ => 10
  | .Boundary _ _ _ _ => 11
  | .Contour _ _ => 12
  | .LoadVdg _ => 13

/-- Whether the instruction is the `Point` variant (the only opcode with a
registered emission rule in the code generator). -/
def SdfInstruction.isPoint : SdfInstruction → Bool
  | .Point _ _ => true
  | _ => false

/-! ### crates/core/src/shape/compiler.rs -/

/-- `SdfCompiler`: the append-only IR builder. -/
structure SdfCompiler where
  instructions : List SdfInstruction
  next_register : ℕ

/-- `SdfCompiler::new`. -/
def SdfCompiler.new : SdfCompiler := ⟨[], 0⟩

/-- `SdfCompiler::allocate_register`. -/
def SdfCompiler.allocate_register (c : SdfCompiler) : SdfCompiler × ℕ :=
  (⟨c.instructions, c.next_register + 1⟩, c.next_register)

/-- `SdfCompiler::point`. -/
def SdfCompiler.point (c : SdfCompiler) (position : Coordinate) : SdfCompiler × ℕ :=
  let (c, output) := c.allocate_register
  (⟨c.instructions ++ [.Point position output], c.next_register⟩, output)

/-- `SdfCompiler::point_cloud`. -/
def SdfCompiler.point_cloud (c : SdfCompiler) (points : List Coordinate) : SdfCompiler × ℕ :=
  let (c, output) := c.allocate_register
  (⟨c.instructions ++ [.PointCloud points output], c.next_register⟩, output)

/-- `SdfCompiler::great_circle`. -/
def SdfCompiler.great_circle (c : SdfCompiler) (point : Coordinate) (bearing : ℚ)
    (interiorPoint : Coordinate) : SdfCompiler × ℕ :=
  let (c, output) := c.allocate_register
  (⟨c.instructions ++ [.GreatCircle point bearing interiorPoint output], c.next_register⟩, output)

/-- `SdfCompiler::geodesic`. -/
def SdfCompiler.geodesic (c : SdfCompiler) (start stop : Coordinate) : SdfCompiler × ℕ :=
  let (c, output) := c.allocate_register
  (⟨c.instructions ++ [.Geodesic start stop output], c.next_register⟩, output)

/-- `SdfCompiler::geodesic_string`. -/
def SdfCompiler.geodesic_string (c : SdfCompiler) (points : List Coordinate) : SdfCompiler × ℕ :=
  let (c, output) := c.allocate_register
  (⟨c.instructions ++ [.GeodesicString points output], c.next_register⟩, output)

/-- `SdfCompiler::union`. -/
def SdfCompiler.union (c : SdfCompiler) (shapes : List ℕ) : SdfCompiler × ℕ :=
  let (c, output) := c.allocate_register
  (⟨c.instructions ++ [.Union shapes output], c.next_register⟩, output)

/-- `SdfCompiler::intersection`. -/
def SdfCompiler.intersection (c : SdfCompiler) (left right : ℕ) : SdfCompiler × ℕ :=
  let (c, output) := c.allocate_register
  (⟨c.instructions ++ [.Intersection left right output], c.next_register⟩, output)

/-- `SdfCompiler::subtract`. -/
def SdfCompiler.subtract (c : SdfCompiler) (left right : ℕ) : SdfCompiler × ℕ :=
  let (c, output) := c.allocate_register
  (⟨c.instructions ++ [.Subtract left right output], c.next_register⟩, output)

/-- `SdfCompiler::invert`. -/
def SdfCompiler.invert (c : SdfCompiler) (input : ℕ) : SdfCompiler × ℕ :=
  let (c, output) := c.allocate_register
  (⟨c.instructions ++ [.Invert input output], c.next_register⟩, output)

/-- `SdfCompiler::dilate`. -/
def SdfCompiler.dilate (c : SdfCompiler) (input : ℕ) (amount : ℤ) : SdfCompiler × ℕ :=
  let (c, output) := c.allocate_register
  (⟨c.instructions ++ [.Dilate input amount output], c.next_register⟩, output)

/-- `SdfCompiler::edge`. -/
def SdfCompiler.edge (c : SdfCompiler) (input : ℕ) : SdfCompiler × ℕ :=
  let (c, output) := c.allocate_register
  (⟨c.instructions ++ [.Edge input output], c.next_register⟩, output)

/-- `SdfCompiler::boundary`. -/
def SdfCompiler.boundary (c : SdfCompiler) (inside outside : ℕ)
    (overlapResolution : BoundaryOverlapResolution) : SdfCompiler × ℕ :=
  let (c, output) := c.allocate_register
  (⟨c.instructions ++ [.Boundary inside outside overlapResolution output], c.next_register⟩, output)

/-- `SdfCompiler::with_vdg` (the `Arc<Diagram>` payload is opaque). -/
def SdfCompiler.with_vdg (c : SdfCompiler) : SdfCompiler × ℕ :=
  let (c, output) := c.allocate_register
  (⟨c.instructions ++ [.LoadVdg output], c.next_register⟩, output)

/-- `SdfCompiler::with_contour_texture` (the texture handle is opaque). -/
def SdfCompiler.with_contour_texture (c : SdfCompiler) (zeroValue : ℤ) : SdfCompiler × ℕ :=
  let (c, output) := c.allocate_register
  (⟨c.instructions ++ [.Contour zeroValue output], c.next_register⟩, output)

/-! ### crates/core/src/shape/compiled/shader/mod.rs — data types -/

/-- `ShaderSlot { instruction_index: u8, instruction_key: u8 }`. The `u8`
fields are modelled as `ℕ`; every constructor site applies the `% 256`
wrap that the source's `as u8` casts perform. -/
structure ShaderSlot where
  instruction_index : ℕ
  instruction_key : ℕ
deriving DecidableEq

/-- The strict order induced by the `Ord` instance on `ShaderSlot`:
instruction index first, then key. -/
abbrev slotLt (a b : ShaderSlot) : Prop :=
  a.instruction_index < b.instruction_index ∨
    (a.instruction_index = b.instruction_index ∧ a.instruction_key < b.instruction_key)

/-- `ShaderArgument { offset: u32, length: u32 }`. -/
structure ShaderArgument where
  offset : ℕ
  length : ℕ
deriving DecidableEq

/-- Compilation abort points. Each constructor corresponds to one panic
site in the source (`unimplemented!`, `expect`, `panic!`, `todo!`). -/
inductive CompileError
  | unimplementedOpcode
  | resultNotPresent
  | missingSlot (slot : ShaderSlot)
  | todoArgument
  | missingArgument
deriving DecidableEq

/-! ### crates/core/src/shape/compiled/shader/cache.rs -/

/-- `ShaderCache`: hash → shader module. Modules are opaque to the claims
and carried as identity numbers; the association list preserves the
`HashMap` lookup/insert behaviour for the keys used. -/
structure ShaderCache where
  cache : List (ℕ × ℕ)

/-- Association-list lookup by first component (the `HashMap::get`). -/
def assocLookup : List (ℕ × ℕ) → ℕ → Option ℕ
  | [], _ => none
  | kv :: rest, k => if kv.1 = k then some kv.2 else assocLookup rest k

/-- `ShaderCache::get_or_create`: return the cached module for `hash` if
present, otherwise install and return the newly created module
(`freshModule` stands for the module `device.create_shader_module` would
build). -/
def ShaderCache.get_or_create (c : ShaderCache) (hash : ℕ) (freshModule : ℕ) :
    ℕ × ShaderCache :=
  match assocLookup c.cache hash with
  | some m => (m, c)
  | none => (freshModule, ⟨c.cache ++ [(hash, freshModule)]⟩)

/-! ### crates/core/src/shape/compiled/shader/mod.rs — `ShapeShader::compile` -/

/-- The per-instruction emission dispatch (`match instruction { ... }`).
Only `Point` has a registered rule (`compile_point`, whose
`RoutineResult.argument_len` is 1); every other opcode hits
`unimplemented!()`. The returned number is `argument_len`. -/
def emissionRule : SdfInstruction → Except CompileError ℕ
  | .Point _ _ => .ok 1
  | _ => .error .unimplementedOpcode

/-- State threaded through the instruction loop of `ShapeShader::compile`:
the hashed transcript (discriminant and output register of each
instruction, in order), the keys of the register → local-variable map, and
the recorded required slots. -/
structure ShaderLoopState where
  trace : List (ℕ × ℕ)
  registers : List ℕ
  required_slots : List ShaderSlot
deriving DecidableEq

/-- The `for (index, instruction) in instructions.enumerate()` loop of
`ShapeShader::compile`: hash the discriminant, dispatch to the emission
rule (aborting on an unhandled opcode), hash the output register, record
`(index as u8, i as u8)` slots for `i in 0..argument_len`, and bind the
output register. -/
def shaderLoop (s : ShaderLoopState) (index : ℕ) :
    List SdfInstruction → Except CompileError ShaderLoopState
  | [] => .ok s
  | ins :: rest => do
    let argument_len ← emissionRule ins
    shaderLoop
      ⟨s.trace ++ [(ins.discriminant, ins.output)],
       s.registers ++ [ins.output],
       s.required_slots ++ (List.range argument_len).map fun i =>
         ShaderSlot.mk (index % 256) (i % 256)⟩
      (index + 1) rest

/-- `ShapeShader`: structural hash, shader module (opaque identity), and
the ordered required-slot list. -/
structure ShapeShader where
  hash : ℕ
  module : ℕ
  required_slots : List ShaderSlot
deriving DecidableEq

/-- `ShapeShader::compile`. The source seeds the hasher with
`RandomState::new().build_hasher()` — a fresh random key per call — so the
digest is a function of both that per-call seed and the structural
transcript; the embedding makes this explicit with a `hashFn` (the SipHash
finishing function, kept abstract) applied to `seed` and the transcript.
After the loop, the designated result register is looked up (`expect`,
aborting if absent), and the module is obtained through
`ShaderCache::get_or_create` keyed by the digest. `freshModule` is the
identity of the module the device would create on a cache miss. -/
def ShapeShader.compile (hashFn : ℕ → List (ℕ × ℕ) → ℕ) (seed : ℕ)
    (cache : ShaderCache) (freshModule : ℕ)
    (instructions : List SdfInstruction) (result : ℕ) :
    Except CompileError (ShapeShader × ShaderCache) := do
  let s ← shaderLoop ⟨[], [], []⟩ 0 instructions
  if result ∈ s.registers then
    let hash := hashFn seed s.trace
    let (m, cache) := cache.get_or_create hash freshModule
    .ok (⟨hash, m, s.required_slots⟩, cache)
  else .error .resultNotPresent

/-! ### crates/core/src/shape/compiled/shader/argument.rs -/

/-- `COORD_SCALE`. -/
def COORD_SCALE : ℤ := 10000000

/-- Round the rational `a / b` (`b ≠ 0`) to the nearest integer, ties away
from zero: the behaviour of Rust `f64::round`, idealized over exact
rationals. -/
def roundRatAway (a : ℤ) (b : ℕ) : ℤ :=
  if 0 ≤ a then (2 * a + b) / (2 * b) else -((2 * (-a) + b) / (2 * b))

/-- One coordinate component of `IntoShaderArgument for geo::Point`:
`(v * COORD_SCALE as f64).round() as i32`. -/
def scale_round (q : ℚ) : ℤ := satI32 (roundRatAway (q.num * COORD_SCALE) q.den)

/-- `i32::to_le_bytes` of the two's-complement value, as four byte values. -/
def to_le_bytes (v : ℤ) : List ℕ :=
  let w := (v % 2 ^ 32).toNat
  [w % 256, w / 256 % 256, w / 65536 % 256, w / 16777216 % 256]

/-- `into_shader_argument` for `geo::Point`: scale and round both
components, append their little-endian `i32` bytes to the buffer, and
return the two `ShaderArgument` records exactly as the source builds them
(`{offset, 1}` and `{offset + 8, 1}`). The `tile` parameter (a `u8` in the
current source) is accepted and ignored, as in the source. -/
def GeoPoint.into_shader_argument (p : Coordinate) (buffer : List ℕ) (tile : ℕ) :
    List ℕ × List ShaderArgument :=
  let x := scale_round p.1
  let y := scale_round p.2
  let offset := buffer.length
  (buffer ++ to_le_bytes x ++ to_le_bytes y,
   [⟨offset, 1⟩, ⟨offset + 8, 1⟩])

/-! ### crates/core/src/shape/compiled/mod.rs -/

/-- The bound-argument map of a `CompiledShape`. Only `geo::Point` payloads
are ever inserted by the current source, so the value type is `Coordinate`. -/
abbrev ArgumentMap := List (ShaderSlot × Coordinate)

/-- `HashMap::get` on the argument map. -/
def slotLookup (args : ArgumentMap) (s : ShaderSlot) : Option Coordinate :=
  (args.find? fun kv => kv.1 = s).map fun kv => kv.2

/-- `HashMap::insert` on the argument map (overwrites an existing key). -/
def slotInsert (args : ArgumentMap) (s : ShaderSlot) (v : Coordinate) : ArgumentMap :=
  (args.filter fun kv => ¬ kv.1 = s) ++ [(s, v)]

/-- The argument-building loop of `CompiledShape::compile`: for each
enumerated instruction, a `Point` binds its position at slot
`(i as u8, 0)`; any other opcode hits `todo!()`. -/
def buildArguments (args : ArgumentMap) (i : ℕ) :
    List SdfInstruction → Except CompileError ArgumentMap
  | [] => .ok args
  | .Point position _ :: rest => buildArguments (slotInsert args ⟨i % 256, 0⟩ position) (i + 1) rest
  | _ :: _ => .error .todoArgument

/-- `CompiledShape`: a compiled shader plus its bound argument map. The
`compilation_id: u64 = rand::random()` field is irrelevant to every claim
and omitted. -/
structure CompiledShape where
  shader : ShapeShader
  arguments : ArgumentMap

/-- The required-slot verification and final construction at the end of
`CompiledShape::compile`: scan the shader's required slots for one with no
bound argument; such a slot is a `panic!` (here `missingSlot`), otherwise
the `CompiledShape` is assembled. -/
def CompiledShape.assemble (shader : ShapeShader) (arguments : ArgumentMap) :
    Except CompileError CompiledShape :=
  match shader.required_slots.find? (fun s => (slotLookup arguments s).isNone) with
  | some s => .error (.missingSlot s)
  | none => .ok ⟨shader, arguments⟩

/-- `CompiledShape::compile`, parameterized over the instruction list and
designated result register that `shape.build_into` / `compiler.finish()`
produce: compile the shader, build the argument map from the instruction
payloads, then verify and assemble. -/
def CompiledShape.compile (hashFn : ℕ → List (ℕ × ℕ) → ℕ) (seed : ℕ)
    (cache : ShaderCache) (freshModule : ℕ)
    (instructions : List SdfInstruction) (target : ℕ) :
    Except CompileError (CompiledShape × ShaderCache) := do
  let r ← ShapeShader.compile hashFn seed cache freshModule instructions target
  let arguments ← buildArguments [] 0 instructions
  let cs ← CompiledShape.assemble r.1 arguments
  .ok (cs, r.2)

/-- The loop body of `CompiledShape::fill_arguments`: for each required
slot in order, look up its bound value (`expect`, aborting if absent) and
let it encode itself onto the end of the buffer, collecting the returned
`ShaderArgument` ranges. -/
def fillLoop (arguments : ArgumentMap) (tile : ℕ) :
    List ShaderSlot → List ℕ → List ShaderArgument →
    Except CompileError (List ℕ × List ShaderArgument)
  | [], buffer, acc => .ok (buffer, acc)
  | s :: rest, buffer, acc =>
    match slotLookup arguments s with
    | none => .error .missingArgument
    | some p =>
      let (buffer, ranges) := GeoPoint.into_shader_argument p buffer tile
      fillLoop arguments tile rest buffer (acc ++ ranges)

/-- `CompiledShape::fill_arguments`. -/
def CompiledShape.fill_arguments (cs : CompiledShape) (buffer : List ℕ) (tile : ℕ) :
    Except CompileError (List ℕ × List ShaderArgument) :=
  fillLoop cs.arguments tile cs.shader.required_slots buffer []

/-! ### Call traces over the public `SdfCompiler` opcode methods -/

/-- One public opcode-method call on an `SdfCompiler`, with its arguments.
Register arguments are the registers the caller passes back in. -/
inductive CompilerCall
  | point (position : Coordinate)
  | point_cloud (points : List Coordinate)
  | great_circle (point : Coordinate) (bearing : ℚ) (interiorPoint : Coordinate)
  | geodesic (start stop : Coordinate)
  | geodesic_string (points : List Coordinate)
  | union (shapes : List ℕ)
  | intersection (left right : ℕ)
  | subtract (left right : ℕ)
  | invert (input : ℕ)
  | dilate (input : ℕ) (amount : ℤ)
  | edge (input : ℕ)
  | boundary (inside outside : ℕ) (overlapResolution : BoundaryOverlapResolution)
  | with_vdg
  | with_contour_texture (zeroValue : ℤ)
deriving DecidableEq

/-- The register arguments a call passes to the compiler. -/
def CompilerCall.registerArgs : CompilerCall → List ℕ
  | .point _ => []
  | .point_cloud _ => []
  | .great_circle _ _ _ => []
  | .geodesic _ _ => []
  | .geodesic_string _ => []
  | .union shapes => shapes
  | .intersection l r => [l, r]
  | .subtract l r => [l, r]
  | .invert i => [i]
  | .dilate i _ => [i]
  | .edge i => [i]
  | .boundary i o _ => [i, o]
  | .with_vdg => []
  | .with_contour_texture _ => []

/-- Dispatch a call to the corresponding `SdfCompiler` method. -/
def CompilerCall.apply (c : SdfCompiler) : CompilerCall → SdfCompiler × ℕ
  | .point position => c.point position
  | .point_cloud points => c.point_cloud points
  | .great_circle p b ip => c.great_circle p b ip
  | .geodesic s e => c.geodesic s e
  | .geodesic_string points => c.geodesic_string points
  | .union shapes => c.union shapes
  | .intersection l r => c.intersection l r
  | .subtract l r => c.subtract l r
  | .invert i => c.invert i
  | .dilate i a => c.dilate i a
  | .edge i => c.edge i
  | .boundary i o res => c.boundary i o res
  | .with_vdg => c.with_vdg
  | .with_contour_texture z => c.with_contour_texture z

/-- Run a sequence of calls on a compiler, keeping the final state. -/
def SdfCompiler.run (c : SdfCompiler) : List CompilerCall → SdfCompiler
  | [] => c
  | k :: ks => SdfCompiler.run (k.apply c).1 ks

/-- Every register argument of every call was previously returned by this
compiler instance: with `n` registers allocated so far, the next call may
only reference registers `< n` (a register is returned the moment it is
allocated, and calls allocate exactly one register each). -/
def wellFormedFrom (n : ℕ) : List CompilerCall → Bool
  | [] => true
  | k :: ks => (k.registerArgs.all fun r => r < n) && wellFormedFrom (n + 1) ks

/-- The instruction a call appends when the allocated output register is
`o` (each method builds exactly this instruction). -/
def CompilerCall.instruction (o : ℕ) : CompilerCall → SdfInstruction
  | .point position => .Point position o
  | .point_cloud points => .PointCloud points o
  | .great_circle p b ip => .GreatCircle p b ip o
  | .geodesic s e => .Geodesic s e o
  | .geodesic_string points => .GeodesicString points o
  | .union shapes => .Union shapes o
  | .intersection l r => .Intersection l r o
  | .subtract l r => .Subtract l r o
  | .invert i => .Invert i o
  | .dilate i a => .Dilate i a o
  | .edge i => .Edge i o
  | .boundary i o2 res => .Boundary i o2 res o
  | .with_vdg => .LoadVdg o
  | .with_contour_texture z => .Contour z o

/-- The single-static-assignment / topological invariant on an instruction
list: position `i` produces register `i`, and every register operand at
position `i` is `< i`. -/
def ssaList (l : List SdfInstruction) : Prop :=
  ∀ i (hi : i < l.length),
    l[i].output = i ∧ ∀ r ∈ l[i].operands, r < i

/-- A list of `n` `Point` instructions at the origin, output register `i`
at position `i` — exactly what compiling a `point_cloud`-free all-point
shape produces. -/
def manyPoints (n : ℕ) : List SdfInstruction :=
  (List.range n).map fun i => .Point (0, 0) i

/-- The eight bytes a bound `geo::Point` contributes to the argument
buffer: little-endian `i32` encodings of its two scaled components. -/
def encodeChunk (p : Coordinate) : List ℕ :=
  to_le_bytes (scale_round p.1) ++ to_le_bytes (scale_round p.2)

theorem except_bind_ok {α β ε : Type} (a : α) (f : α → Except ε β) :
    (Except.ok a >>= f) = f a := rfl

theorem except_bind_error {α β ε : Type} (e : ε) (f : α → Except ε β) :
    ((Except.error e : Except ε α) >>= f) = Except.error e := rfl

theorem apply_fst (c : SdfCompiler) (k : CompilerCall) :
    (k.apply c).1 = ⟨c.instructions ++ [k.instruction c.next_register], c.next_register + 1⟩ := by
  cases k <;> rfl

theorem apply_snd (c : SdfCompiler) (k : CompilerCall) :
    (k.apply c).2 = c.next_register := by
  cases k <;> rfl

theorem instruction_output (k : CompilerCall) (o : ℕ) :
    (k.instruction o).output = o := by
  cases k <;> rfl

theorem instruction_operands (k : CompilerCall) (o : ℕ) :
    (k.instruction o).operands = k.registerArgs := by
  cases k <;> rfl

theorem ssaList_nil : ssaList [] := by
  intro i hi
  simp at hi

theorem ssaList_append (l : List SdfInstruction) (k : CompilerCall)
    (hssa : ssaList l) (hargs : ∀ r ∈ k.registerArgs, r < l.length) :
    ssaList (l ++ [k.instruction l.length]) := by
  intro i hi
  rcases Nat.lt_or_ge i l.length with hlt | hge
  · have : (l ++ [k.instruction l.length])[i] = l[i] := List.getElem_append_left hlt
    rw [this]
    exact hssa i hlt
  · have hilen : i = l.length := by
      have : i < l.length + 1 := by simpa using hi
      omega
    subst hilen
    have : (l ++ [k.instruction l.length])[l.length] = k.instruction l.length := by
      simp
    rw [this, instruction_output, instruction_operands]
    exact ⟨rfl, hargs⟩

theorem run_ssa_aux (calls : List CompilerCall) (c : SdfCompiler)
    (hlen : c.next_register = c.instructions.length)
    (hssa : ssaList c.instructions)
    (hwf : wellFormedFrom c.next_register calls = true) :
    (c.run calls).next_register = (c.run calls).instructions.length ∧
      ssaList (c.run calls).instructions := by
  induction calls generalizing c with
  | nil => exact ⟨hlen, hssa⟩
  | cons k ks ih =>
    simp only [SdfCompiler.run]
    rw [apply_fst]
    simp only [wellFormedFrom, Bool.and_eq_true, List.all_eq_true, decide_eq_true_eq] at hwf
    apply ih
    · simp [hlen]
    · rw [hlen] at hwf
      simpa [hlen] using ssaList_append c.instructions k hssa hwf.1
    · exact hwf.2

/-- C2: any sequence of public `SdfCompiler` opcode-method calls on one
compiler instance, in which every register argument was previously
returned by that instance, produces an instruction list in which the
instruction at position `i` outputs register `i` and references only
registers produced at strictly earlier positions. -/
theorem c2_instruction_list_ssa (calls : List CompilerCall)
    (hwf : wellFormedFrom 0 calls = true) :
    ssaList (SdfCompiler.new.run calls).instructions :=
  (run_ssa_aux calls SdfCompiler.new rfl ssaList_nil hwf).2

/-- Witness for C2 at a concrete call trace: two points and a union of
their registers. -/
theorem c2_instruction_list_ssa_witness :
    wellFormedFrom 0 [CompilerCall.point (0, 0), CompilerCall.point (1, 1),
        CompilerCall.union [0, 1]] = true ∧
      ssaList (SdfCompiler.new.run [CompilerCall.point (0, 0), CompilerCall.point (1, 1),
        CompilerCall.union [0, 1]]).instructions :=
  ⟨by decide, c2_instruction_list_ssa _ (by decide)⟩

/-! ### C10 — Centimeters conversions -/

/-- C10: for every in-range `Centimeters` value, `as_millimeters` is
exactly ten times the value, the product fits the `i64` range (no
overflow), and `from_millimeters` inverts it exactly. -/
theorem c10_centimeters_roundtrip (c : ℤ) (h1 : i32Min ≤ c) (h2 : c ≤ i32Max) :
    Centimeters.as_millimeters c = 10 * c ∧
      -(2 ^ 63) ≤ Centimeters.as_millimeters c ∧ Centimeters.as_millimeters c < 2 ^ 63 ∧
      Centimeters.from_millimeters (Centimeters.as_millimeters c) = c := by
  unfold Centimeters.as_millimeters Centimeters.from_millimeters wrapI32 i32Min i32Max at *
  have htdiv : (c * 10).tdiv 10 = c := Int.mul_tdiv_cancel c (by norm_num)
  rw [htdiv]
  constructor
  · ring
  · refine ⟨by omega, by omega, ?_⟩
    omega

/-- Witness for C10 at `c = -5`. -/
theorem c10_centimeters_roundtrip_witness :
    (i32Min ≤ -5 ∧ (-5 : ℤ) ≤ i32Max) ∧
      (Centimeters.as_millimeters (-5) = 10 * (-5) ∧
        -(2 ^ 63) ≤ Centimeters.as_millimeters (-5) ∧
        Centimeters.as_millimeters (-5) < 2 ^ 63 ∧
        Centimeters.from_millimeters (Centimeters.as_millimeters (-5)) = -5) :=
  ⟨⟨by decide, by decide⟩, c10_centimeters_roundtrip (-5) (by decide) (by decide)⟩

/-! ### C4 — fail-fast on unhandled opcodes and absent result registers -/

theorem shaderLoop_error_of_nonpoint (l : List SdfInstruction) :
    ∀ s index, (∃ ins ∈ l, ins.isPoint = false) →
      shaderLoop s index l = .error .unimplementedOpcode := by
  induction l with
  | nil =>
    rintro s index ⟨ins, hmem, _⟩
    simp at hmem
  | cons ins rest ih =>
    rintro s index ⟨ins2, hmem, hins2⟩
    rcases List.mem_cons.mp hmem with heq | hmem2
    · subst heq
      cases ins2 <;>
        simp_all [shaderLoop, emissionRule, except_bind_error, SdfInstruction.isPoint]
    · cases ins <;>
        first
          | (simp only [shaderLoop, emissionRule, except_bind_ok]
             exact ih _ _ ⟨ins2, hmem2, hins2⟩)
          | simp only [shaderLoop, emissionRule, except_bind_error]

theorem shaderLoop_ok_registers (l : List SdfInstruction) :
    ∀ s index out, shaderLoop s index l = .ok out →
      out.registers = s.registers ++ l.map SdfInstruction.output := by
  induction l with
  | nil =>
    intro s index out h
    simp only [shaderLoop] at h
    cases h
    simp
  | cons ins rest ih =>
    intro s index out h
    cases ins <;>
      first
        | (simp only [shaderLoop, emissionRule, except_bind_error] at h
           cases h)
        | (simp only [shaderLoop, emissionRule, except_bind_ok] at h
           have := ih _ _ _ h
           simpa using this)

/-- C4: `ShapeShader::compile` aborts (returns an error, never a partial
program) whenever some instruction's opcode has no registered emission
rule, or the designated result register is not produced by any
instruction in the list. -/
theorem c4_compile_fails_fast (hashFn : ℕ → List (ℕ × ℕ) → ℕ) (seed : ℕ)
    (cache : ShaderCache) (freshModule : ℕ) (l : List SdfInstruction) (result : ℕ)
    (h : (∃ ins ∈ l, ins.isPoint = false) ∨ result ∉ l.map SdfInstruction.output) :
    ∃ e, ShapeShader.compile hashFn seed cache freshModule l result = .error e := by
  rcases h with hbad | hres
  · refine ⟨.unimplementedOpcode, ?_⟩
    unfold ShapeShader.compile
    rw [shaderLoop_error_of_nonpoint l _ 0 hbad, except_bind_error]
  · cases hloop : shaderLoop ⟨[], [], []⟩ 0 l with
    | error e =>
      refine ⟨e, ?_⟩
      unfold ShapeShader.compile
      rw [hloop, except_bind_error]
    | ok out =>
      refine ⟨.resultNotPresent, ?_⟩
      have hreg : out.registers = l.map SdfInstruction.output := by
        simpa using shaderLoop_ok_registers l _ 0 out hloop
      unfold ShapeShader.compile
      rw [hloop, except_bind_ok]
      simp [hreg, hres]

/-- Witness for C4: a `Union` instruction (no emission rule) aborts
compilation. -/
theorem c4_compile_fails_fast_witness :
    ((∃ ins ∈ [SdfInstruction.Union [] 0], ins.isPoint = false) ∨
        0 ∉ [SdfInstruction.Union [] 0].map SdfInstruction.output) ∧
      ∃ e, ShapeShader.compile (fun _ _ => 0) 0 ⟨[]⟩ 0 [SdfInstruction.Union [] 0] 0 = .error e :=
  ⟨Or.inl ⟨SdfInstruction.Union [] 0, by decide, by decide⟩,
    c4_compile_fails_fast (fun _ _ => 0) 0 ⟨[]⟩ 0 [SdfInstruction.Union [] 0] 0
      (Or.inl ⟨SdfInstruction.Union [] 0, by decide, by decide⟩)⟩

/-! ### C5 — missing required slots abort construction -/

/-- C5: a `ShaderSlot` required by the compiled program but absent from
the bound-argument map makes the verification step at the end of
`CompiledShape::compile` abort with `missingSlot`; consequently a
successfully compiled `CompiledShape` binds every required slot before
`fill_arguments` can ever be called on it. -/
theorem c5_missing_slot_aborts :
    (∀ (shader : ShapeShader) (args : ArgumentMap),
        (∃ s ∈ shader.required_slots, slotLookup args s = none) →
          ∃ s, CompiledShape.assemble shader args = .error (.missingSlot s)) ∧
      (∀ (hashFn : ℕ → List (ℕ × ℕ) → ℕ) (seed : ℕ) (cache : ShaderCache) (freshModule : ℕ)
          (l : List SdfInstruction) (target : ℕ) (cs : CompiledShape) (cache2 : ShaderCache),
        CompiledShape.compile hashFn seed cache freshModule l target = .ok (cs, cache2) →
          ∀ s ∈ cs.shader.required_slots, (slotLookup cs.arguments s).isSome) := by
  constructor
  · intro shader args h
    rcases h with ⟨s, hmem, hnone⟩
    unfold CompiledShape.assemble
    cases hfind : shader.required_slots.find? (fun s => (slotLookup args s).isNone) with
    | some s2 => exact ⟨s2, rfl⟩
    | none =>
      exfalso
      have := List.find?_eq_none.mp hfind s hmem
      simp [hnone] at this
  · intro hashFn seed cache freshModule l target cs cache2 h s hmem
    unfold CompiledShape.compile at h
    cases hsh : ShapeShader.compile hashFn seed cache freshModule l target with
    | error e =>
      rw [hsh, except_bind_error] at h
      cases h
    | ok shc =>
      rw [hsh, except_bind_ok] at h
      cases hargs : buildArguments [] 0 l with
      | error e =>
        rw [hargs, except_bind_error] at h
        cases h
      | ok args =>
        rw [hargs, except_bind_ok] at h
        unfold CompiledShape.assemble at h
        cases hfind : shc.1.required_slots.find? (fun s => (slotLookup args s).isNone) with
        | some s2 =>
          rw [hfind] at h
          cases h
        | none =>
          rw [hfind] at h
          rw [except_bind_ok] at h
          cases h
          have := List.find?_eq_none.mp hfind s hmem
          simp only [decide_eq_true_eq, Option.isNone_iff_eq_none] at this
          exact Option.isSome_iff_ne_none.mpr this

/-- Witness for C5: a shader requiring slot `(0,0)` with an empty argument
map aborts assembly. -/
theorem c5_missing_slot_aborts_witness :
    (∃ s ∈ (ShapeShader.mk 0 0 [⟨0, 0⟩]).required_slots, slotLookup [] s = none) ∧
      ∃ s, CompiledShape.assemble (ShapeShader.mk 0 0 [⟨0, 0⟩]) [] = .error (.missingSlot s) :=
  ⟨⟨⟨0, 0⟩, by decide, by decide⟩,
    c5_missing_slot_aborts.1 (ShapeShader.mk 0 0 [⟨0, 0⟩]) [] ⟨⟨0, 0⟩, by decide, by decide⟩⟩

/-! ### C1 — per-call random hasher seeds versus content addressing -/

/-- C1 (code bug witness): `ShapeShader::compile` builds its hasher from a
fresh `RandomState::new()` on every call, so the digest is
`hashFn seed transcript` for a per-call `seed`. For the one-instruction
list `[Point p r0]` the hashed transcript is `[(0, 0)]` (discriminant 0,
output register 0). Whenever the two per-call seeds make the digests
differ — which fresh `RandomState` keys do with overwhelming probability —
the second compilation of the *identical* instruction content misses the
cache, creates a second module (`m2`), and leaves two cache entries: a
duplicate compile of the same structural shape. -/
theorem c1_fresh_seed_defeats_cache (hashFn : ℕ → List (ℕ × ℕ) → ℕ)
    (s1 s2 m1 m2 : ℕ) (p : Coordinate)
    (hne : hashFn s1 [(0, 0)] ≠ hashFn s2 [(0, 0)]) :
    ShapeShader.compile hashFn s1 ⟨[]⟩ m1 [.Point p 0] 0 =
      .ok (⟨hashFn s1 [(0, 0)], m1, [⟨0, 0⟩]⟩, ⟨[(hashFn s1 [(0, 0)], m1)]⟩) ∧
    ShapeShader.compile hashFn s2 ⟨[(hashFn s1 [(0, 0)], m1)]⟩ m2 [.Point p 0] 0 =
      .ok (⟨hashFn s2 [(0, 0)], m2, [⟨0, 0⟩]⟩,
        ⟨[(hashFn s1 [(0, 0)], m1), (hashFn s2 [(0, 0)], m2)]⟩) := by
  constructor
  · rfl
  · unfold ShapeShader.compile
    rw [show shaderLoop ⟨[], [], []⟩ 0 [SdfInstruction.Point p 0] =
        .ok ⟨[(0, 0)], [0], [⟨0, 0⟩]⟩ from rfl, except_bind_ok]
    simp only [ShaderCache.get_or_create, assocLookup]
    rw [if_neg hne]
    simp

/-- Witness for C1 with a concrete seed-sensitive digest function and the
distinct per-call seeds 0 and 1. -/
theorem c1_fresh_seed_defeats_cache_witness :
    ((fun (s : ℕ) (_ : List (ℕ × ℕ)) => s) 0 [(0, 0)] ≠
        (fun (s : ℕ) (_ : List (ℕ × ℕ)) => s) 1 [(0, 0)]) ∧
      (ShapeShader.compile (fun s _ => s) 0 ⟨[]⟩ 5 [.Point (0, 0) 0] 0 =
          .ok (⟨0, 5, [⟨0, 0⟩]⟩, ⟨[(0, 5)]⟩) ∧
        ShapeShader.compile (fun s _ => s) 1 ⟨[(0, 5)]⟩ 7 [.Point (0, 0) 0] 0 =
          .ok (⟨1, 7, [⟨0, 0⟩]⟩, ⟨[(0, 5), (1, 7)]⟩)) :=
  ⟨by decide, c1_fresh_seed_defeats_cache (fun s _ => s) 0 1 5 7 (0, 0) (by decide)⟩

/-! ### C3 — coordinate argument encoding -/

/-- C3 (code bug witness): binding the point `(1, 2)` into an empty buffer
appends exactly the eight little-endian bytes of the two scaled `i32`
values `10^7` and `2 * 10^7` — that much of the claim holds — but the two
returned `ShaderArgument` records are `{offset: 0, length: 1}` and
`{offset: 8, length: 1}`: the second one points at the end of the
appended bytes, not at offset 4 where the `y` value's four bytes actually
live. -/
theorem c3_second_argument_misses_y :
    GeoPoint.into_shader_argument ((1 : ℚ), (2 : ℚ)) [] 0 =
      (to_le_bytes 10000000 ++ to_le_bytes 20000000, [⟨0, 1⟩, ⟨8, 1⟩]) ∧
    to_le_bytes 10000000 = [128, 150, 152, 0] ∧
    to_le_bytes 20000000 = [0, 45, 49, 1] ∧
    (to_le_bytes 10000000 ++ to_le_bytes 20000000).length = 8 := by
  refine ⟨?_, by decide, by decide, by decide⟩
  decide

/-! ### C7 — degenerate point clouds build but cannot compile -/

/-- C7 (code bug witness): `point_cloud([])` and `union([])` do produce
well-defined registers in the IR builder (register 0 with the expected
single instruction), but `ShapeShader::compile` aborts on both via the
`unimplemented!()` arm of the opcode dispatch — no evaluation routine
exists, so nothing ever evaluates to "outside". -/
theorem c7_point_cloud_has_no_emission_rule :
    ((SdfCompiler.new.point_cloud []).2 = 0 ∧
      (SdfCompiler.new.point_cloud []).1.instructions = [.PointCloud [] 0]) ∧
    ((SdfCompiler.new.union []).2 = 0 ∧
      (SdfCompiler.new.union []).1.instructions = [.Union [] 0]) ∧
    ShapeShader.compile (fun _ _ => 0) 0 ⟨[]⟩ 0 [.PointCloud [] 0] 0 =
      .error .unimplementedOpcode ∧
    ShapeShader.compile (fun _ _ => 0) 0 ⟨[]⟩ 0 [.Union [] 0] 0 =
      .error .unimplementedOpcode :=
  ⟨⟨rfl, rfl⟩, ⟨rfl, rfl⟩, rfl, rfl⟩

/-! ### C8 — boundary opcode has no emission rule -/

/-- C8 (code bug witness): a `Boundary` instruction under either
non-midpoint policy aborts `ShapeShader::compile` through the
`unimplemented!()` dispatch arm; neither policy has any evaluable
classification semantics in the code. -/
theorem c8_boundary_has_no_emission_rule :
    ShapeShader.compile (fun _ _ => 0) 0 ⟨[]⟩ 0
        [.Point (0, 0) 0, .Point (0, 0) 1, .Boundary 0 1 .Inside 2] 2 =
      .error .unimplementedOpcode ∧
    ShapeShader.compile (fun _ _ => 0) 0 ⟨[]⟩ 0
        [.Point (0, 0) 0, .Point (0, 0) 1, .Boundary 0 1 .Outside 2] 2 =
      .error .unimplementedOpcode :=
  ⟨rfl, rfl⟩

/-! ### C6 — required-slot ordering and argument-buffer concatenation -/

theorem isPoint_exists (ins : SdfInstruction) (h : ins.isPoint = true) :
    ∃ position o, ins = SdfInstruction.Point position o := by
  cases ins <;>
    first
      | exact ⟨_, _, rfl⟩
      | simp [SdfInstruction.isPoint] at h

theorem shaderLoop_allpoints (l : List SdfInstruction) :
    ∀ s index, (∀ ins ∈ l, ins.isPoint = true) →
      shaderLoop s index l = .ok
        ⟨s.trace ++ l.map fun ins => (ins.discriminant, ins.output),
         s.registers ++ l.map SdfInstruction.output,
         s.required_slots ++ (List.range l.length).map fun j =>
           ShaderSlot.mk ((index + j) % 256) 0⟩ := by
  induction l with
  | nil =>
    intro s index h
    simp [shaderLoop]
  | cons ins rest ih =>
    intro s index h
    obtain ⟨position, o, rfl⟩ := isPoint_exists ins (h ins (List.mem_cons_self _ _))
    simp only [shaderLoop, emissionRule, except_bind_ok]
    rw [ih _ _ fun i hi => h i (List.mem_cons_of_mem _ hi)]
    have hslots : (List.range (rest.length + 1)).map
          (fun j => ShaderSlot.mk ((index + j) % 256) 0) =
        ShaderSlot.mk (index % 256) 0 ::
          (List.range rest.length).map fun j => ShaderSlot.mk ((index + 1 + j) % 256) 0 := by
      rw [List.range_succ_eq_map, List.map_cons, List.map_map]
      congr 1
      apply List.map_congr_left
      intro a ha
      show ShaderSlot.mk ((index + (a + 1)) % 256) 0 = ShaderSlot.mk ((index + 1 + a) % 256) 0
      have harith : index + (a + 1) = index + 1 + a := by omega
      rw [harith]
    congr 1
    simp only [List.length_cons, hslots, List.map_cons]
    congr 1 <;> simp [List.append_assoc, List.range_succ]

theorem shaderLoop_ok_allpoints (l : List SdfInstruction) (s : ShaderLoopState) (index : ℕ)
    (out : ShaderLoopState) (h : shaderLoop s index l = .ok out) :
    ∀ ins ∈ l, ins.isPoint = true := by
  intro ins hmem
  cases hp : ins.isPoint with
  | true => rfl
  | false =>
    rw [shaderLoop_error_of_nonpoint l s index ⟨ins, hmem, hp⟩] at h
    cases h

theorem compile_ok_required_slots (hashFn : ℕ → List (ℕ × ℕ) → ℕ) (seed : ℕ)
    (cache : ShaderCache) (freshModule : ℕ) (l : List SdfInstruction) (result : ℕ)
    (out : ShapeShader × ShaderCache)
    (h : ShapeShader.compile hashFn seed cache freshModule l result = .ok out) :
    ∃ s0, shaderLoop ⟨[], [], []⟩ 0 l = .ok s0 ∧
      out.1.required_slots = s0.required_slots := by
  unfold ShapeShader.compile at h
  cases hloop : shaderLoop ⟨[], [], []⟩ 0 l with
  | error e =>
    rw [hloop, except_bind_error] at h
    cases h
  | ok s0 =>
    rw [hloop, except_bind_ok] at h
    by_cases hres : result ∈ s0.registers
    · rw [if_pos hres] at h
      cases h
      exact ⟨s0, rfl, rfl⟩
    · rw [if_neg hres] at h
      cases h

theorem chain_slots (n : ℕ) (h : n ≤ 256) :
    List.Chain' slotLt ((List.range n).map fun j => ShaderSlot.mk ((0 + j) % 256) 0) := by
  cases n with
  | zero => simp
  | succ m =>
    rw [List.chain'_map]
    rw [List.chain'_range_succ]
    intro i hi
    left
    show (0 + i) % 256 < (0 + (i + 1)) % 256
    omega

theorem into_shader_argument_spec (p : Coordinate) (buffer : List ℕ) (tile : ℕ) :
    GeoPoint.into_shader_argument p buffer tile =
      (buffer ++ encodeChunk p,
       [⟨buffer.length, 1⟩, ⟨buffer.length + 8, 1⟩]) := by
  simp [GeoPoint.into_shader_argument, encodeChunk, List.append_assoc]

theorem fillLoop_concat (args : ArgumentMap) (tile : ℕ) (slots : List ShaderSlot) :
    ∀ (buffer : List ℕ) (acc : List ShaderArgument),
      (∀ s ∈ slots, (slotLookup args s).isSome) →
      ∃ ranges, fillLoop args tile slots buffer acc = .ok
        (buffer ++ (slots.map fun s => encodeChunk ((slotLookup args s).getD (0, 0))).flatten,
         ranges) := by
  induction slots with
  | nil =>
    intro buffer acc h
    exact ⟨acc, by simp [fillLoop]⟩
  | cons s rest ih =>
    intro buffer acc h
    obtain ⟨p, hp⟩ := Option.isSome_iff_exists.mp (h s (List.mem_cons_self _ _))
    obtain ⟨ranges, hr⟩ := ih (buffer ++ encodeChunk p)
      (acc ++ [⟨buffer.length, 1⟩, ⟨buffer.length + 8, 1⟩])
      fun s2 hs2 => h s2 (List.mem_cons_of_mem _ hs2)
    refine ⟨ranges, ?_⟩
    simp only [fillLoop, hp, into_shader_argument_spec]
    rw [hr]
    simp [hp, List.append_assoc]

set_option maxRecDepth 100000

/-- C6 counterexample to the claim as stated: 257 `Point` instructions
compile successfully, but the `index as u8` truncation makes the 257th
required slot `(0, 0)` again, so the required-slot list is not strictly
ascending. -/
theorem c6_counterexample_257_points :
    ∃ sh cache2,
      ShapeShader.compile (fun _ _ => 0) 0 ⟨[]⟩ 0 (manyPoints 257) 0 = .ok (sh, cache2) ∧
        ¬ List.Chain' slotLt sh.required_slots := by
  refine ⟨_, _, rfl, fun hchain => ?_⟩
  rw [List.chain'_iff_get] at hchain
  have h := hchain 255 (by decide)
  revert h
  decide

/-- C6 amended: *provided the instruction list has at most 256
instructions* (so the `u8` instruction indices do not wrap), the
required-slot list of a successfully compiled shader is strictly
ascending in `ShaderSlot` order; and `fill_arguments`, for any argument
map binding every required slot, encodes the bound values of exactly
those slots, in exactly that order, as a concatenation appended to the
buffer. -/
theorem c6_amended_sorted_slots_and_fill (hashFn : ℕ → List (ℕ × ℕ) → ℕ) (seed : ℕ)
    (cache : ShaderCache) (freshModule : ℕ) (l : List SdfInstruction) (target : ℕ)
    (out : ShapeShader × ShaderCache) (hlen : l.length ≤ 256)
    (hok : ShapeShader.compile hashFn seed cache freshModule l target = .ok out) :
    List.Chain' slotLt out.1.required_slots ∧
      ∀ (args : ArgumentMap) (buffer : List ℕ) (tile : ℕ),
        (∀ s ∈ out.1.required_slots, (slotLookup args s).isSome) →
        ∃ ranges,
          CompiledShape.fill_arguments ⟨out.1, args⟩ buffer tile = .ok
            (buffer ++ (out.1.required_slots.map fun s =>
                encodeChunk ((slotLookup args s).getD (0, 0))).flatten, ranges) := by
  obtain ⟨s0, hloop, hslots⟩ :=
    compile_ok_required_slots hashFn seed cache freshModule l target out hok
  have hall := shaderLoop_ok_allpoints l _ 0 s0 hloop
  rw [shaderLoop_allpoints l ⟨[], [], []⟩ 0 hall] at hloop
  cases hloop
  constructor
  · rw [hslots]
    simpa using chain_slots l.length hlen
  · intro args buffer tile hbound
    exact fillLoop_concat args tile out.1.required_slots buffer [] hbound

/-- Witness for the amended C6 at a concrete two-point shape. -/
theorem c6_amended_sorted_slots_and_fill_witness :
    ([SdfInstruction.Point (1, 2) 0, SdfInstruction.Point (3, 4) 1].length ≤ 256 ∧
      ShapeShader.compile (fun _ _ => 0) 0 ⟨[]⟩ 9
          [SdfInstruction.Point (1, 2) 0, SdfInstruction.Point (3, 4) 1] 0 =
        .ok (⟨0, 9, [⟨0, 0⟩, ⟨1, 0⟩]⟩, ⟨[(0, 9)]⟩)) ∧
    (List.Chain' slotLt
        ((⟨0, 9, [⟨0, 0⟩, ⟨1, 0⟩]⟩, (⟨[(0, 9)]⟩ : ShaderCache)) :
          ShapeShader × ShaderCache).1.required_slots ∧
      ∀ (args : ArgumentMap) (buffer : List ℕ) (tile : ℕ),
        (∀ s ∈ ((⟨0, 9, [⟨0, 0⟩, ⟨1, 0⟩]⟩, (⟨[(0, 9)]⟩ : ShaderCache)) :
            ShapeShader × ShaderCache).1.required_slots, (slotLookup args s).isSome) →
        ∃ ranges,
          CompiledShape.fill_arguments
              ⟨((⟨0, 9, [⟨0, 0⟩, ⟨1, 0⟩]⟩, (⟨[(0, 9)]⟩ : ShaderCache)) :
                ShapeShader × ShaderCache).1, args⟩ buffer tile = .ok
            (buffer ++ (((⟨0, 9, [⟨0, 0⟩, ⟨1, 0⟩]⟩, (⟨[(0, 9)]⟩ : ShaderCache)) :
                ShapeShader × ShaderCache).1.required_slots.map fun s =>
                encodeChunk ((slotLookup args s).getD (0, 0))).flatten, ranges)) :=
  ⟨⟨by decide, rfl⟩,
    c6_amended_sorted_slots_and_fill (fun _ _ => 0) 0 ⟨[]⟩ 9
      [SdfInstruction.Point (1, 2) 0, SdfInstruction.Point (3, 4) 1] 0
      (⟨0, 9, [⟨0, 0⟩, ⟨1, 0⟩]⟩, ⟨[(0, 9)]⟩) (by decide) rfl⟩

end LetLag
